import Mathlib

/-!
# Assertion helpers of the javascript-study repository

A shallow embedding of the three functions the example files are built on:

* `assert`      (src/helpers/test.js line 4, grammarAndTypes.js line 5),
* `assertError` (src/helpers/test.js lines 7-18, grammarAndTypes.js lines 7-18),
* `sum`         (grammarAndTypes.js lines 67-69).

The functions are effectful (they write to the console and run a callback), so
they are embedded as state transformers over a `World` that holds the console
output and whatever state the callbacks under test can touch.
-/

namespace JsStudy

/-! ## The part of the language runtime the helpers observe -/

/-- One constructor function, as far as the helpers look at it: its identity
(which is also the identity of its prototype object), its own name property
(read by the helper as error.name) and the name property its prototype object
carries, when it carries one. -/
structure Ctor where
  id : Nat
  name : String
  protoName : Option String
deriving DecidableEq, Repr

/-- An error kind: a constructor together with the chain of constructors it
extends. -/
inductive Kind where
  | root (c : Ctor)
  | sub (c : Ctor) (parent : Kind)
deriving DecidableEq, Repr

/-- The constructor at the head of the chain. -/
def Kind.ctor : Kind → Ctor
  | .root c => c
  | .sub c _ => c

/-- The name property of the constructor itself: error.name in assertError. -/
def Kind.name (k : Kind) : String := k.ctor.name

/-- The kind itself followed by every kind it extends, nearest first. This is
the prototype chain of an instance of the kind. -/
def Kind.lineage : Kind → List Kind
  | .root c => [.root c]
  | .sub c parent => .sub c parent :: parent.lineage

/-- The name an instance inherits: the first name property met on the
prototype chain, none when no prototype on the chain has one. -/
def Kind.inheritedName : Kind → Option String
  | .root c => c.protoName
  | .sub c parent =>
    match c.protoName with
    | some n => some n
    | none => parent.inheritedName

/-- Values of the language. A number is a finite value, NaN or an infinity
(the two zeros are not told apart). An object is described by what the helpers
can observe of it: the kind that constructed it and its own name property,
when it has one. Functions are objects too. -/
inductive Value where
  | undefined
  | null
  | boolean (b : Bool)
  | number (q : ℚ)
  | nan
  | infinity (negative : Bool)
  | bigint (n : Int)
  | string (s : String)
  | symbol (description : String)
  | object (kind : Kind) (ownName : Option String)
deriving DecidableEq, Repr

/-- Truthiness (the ToBoolean conversion applied by console.assert and by the
conditional operator). -/
def Value.toBoolean : Value → Bool
  | .undefined => false
  | .null => false
  | .boolean b => b
  | .number q => q != 0
  | .nan => false
  | .infinity _ => true
  | .bigint n => n != 0
  | .string s => s != ""
  | .symbol _ => true
  | .object _ _ => true

/-- The built-in kinds used by the examples. Every standard error prototype
carries the name of its constructor. -/
def Kind.Object : Kind := .root ⟨0, "Object", none⟩

/-- The built-in Function constructor. -/
def Kind.Function : Kind := .sub ⟨1, "Function", some ""⟩ Kind.Object

/-- The built-in base Error constructor. -/
def Kind.Error : Kind := .sub ⟨2, "Error", some "Error"⟩ Kind.Object

/-- The built-in TypeError constructor. -/
def Kind.TypeError : Kind := .sub ⟨3, "TypeError", some "TypeError"⟩ Kind.Error

/-- The built-in ReferenceError constructor. -/
def Kind.ReferenceError : Kind :=
  .sub ⟨4, "ReferenceError", some "ReferenceError"⟩ Kind.Error

/-- The value of `new K()`: an object of kind K without an own name. -/
def Kind.construct (k : Kind) : Value := .object k none

/-- A constructor used as a value (as in `assert(ReferenceError, ...)`): a
function object whose own name is the name of the constructor. -/
def Kind.asValue (k : Kind) : Value := .object Kind.Function (some k.name)

/-- The test `v instanceof k`: false for every primitive, and for an object
whether the prototype of k lies on the prototype chain of the object. -/
def instanceOf (v : Value) (k : Kind) : Bool :=
  match v with
  | .object kind _ => decide (k ∈ kind.lineage)
  | _ => false

/-- The property read `v.name`. Reading a property of undefined or null throws
a TypeError; a primitive has no such property; an object yields its own name
or else the inherited one. An absent property reads as undefined (none). -/
def getName : Value → Except Value (Option String)
  | .undefined => .error Kind.TypeError.construct
  | .null => .error Kind.TypeError.construct
  | .object _ (some n) => .ok (some n)
  | .object kind none => .ok kind.inheritedName
  | _ => .ok none

/-- String conversion of a name inside a template literal: an absent name
prints as the text undefined. -/
def nameText : Option String → String
  | some n => n
  | none => "undefined"

/-! ## The world: console output and the state callbacks act on -/

/-- One failed console.assert call: the arguments handed over after the
condition, which is what the console prints. -/
abbrev Diagnostic := List Value

/-- The console output so far (oldest first) and the state `heap` the
operations under test read and write. -/
structure World (σ : Type) where
  heap : σ
  sink : List Diagnostic

/-- How a call ends: it returns a value or throws one. -/
inductive Completion where
  | normal (v : Value)
  | throw (v : Value)
deriving DecidableEq, Repr

/-- A zero-argument function of the program: it may change the world and then
returns or throws. -/
abbrev Op (σ : Type) := World σ → Completion × World σ

/-- The console.assert of the host: nothing happens when the first argument is
truthy (a missing first argument counts as false); otherwise exactly one
diagnostic is written, made of the remaining arguments. It never throws. -/
def consoleAssert {σ : Type} (args : List Value) (w : World σ) : World σ :=
  if (args.headD .undefined).toBoolean then w
  else { w with sink := w.sink ++ [args.tail] }

/-! ## The helpers -/

/-- One argument of a call: a plain value, or a function together with what
invoking it does. The callee holds the function itself and is free to run it. -/
inductive Arg (σ : Type) where
  | value (v : Value)
  | function (name : String) (body : Op σ)

/-- What an argument is as a value: a function argument is a function object
bearing its name. This is all the console gets to print of it. -/
def Arg.toValue {σ : Type} : Arg σ → Value
  | .value v => v
  | .function name _ => .object Kind.Function (some name)

/-- The helper `assert`:
    const assert = (...args) => { console.assert(...args) }
Every argument, functions included, is handed on to console.assert, which
tests the first and prints the others. -/
def assert {σ : Type} (args : List (Arg σ)) : Op σ := fun w =>
  (.normal .undefined, consoleAssert (args.map Arg.toValue) w)

/-- The value of args[1]: the message when one is passed, undefined otherwise. -/
def messageArg : Option String → Value
  | some m => .string m
  | none => .undefined

/-- The text assigned to errMsg in the catch block, once err.name is read:
    (args[1] !== undefined ? args[1] + " and " : "")
      + "expected error was " + error.name + ", but got " + err.name -/
def errMsgText (error : Kind) (message : Option String) (errName : Option String) : String :=
  (match message with
    | some m => m ++ " and "
    | none => "")
  ++ ("expected error was " ++ error.name ++ ", but got " ++ nameText errName)

/-- The finally block of assertError, run with the current values of the two
locals:  console.assert(err instanceof error, errMsg ? errMsg : args[1]) -/
def finallyBlock {σ : Type} (error : Kind) (message : Option String)
    (err errMsg : Value) (w : World σ) : World σ :=
  consoleAssert
    [.boolean (instanceOf err error), if errMsg.toBoolean then errMsg else messageArg message] w

/-- The helper `assertError`, with args[0] the operation and args[1] the
optional message:

    const assertError = (error, ...args) => {
      let err, errMsg;
      try { args[0].call(); }
      catch (caughtError) { err = caughtError; errMsg = ... }
      finally { console.assert(err instanceof error, errMsg ? errMsg : args[1]); }
    }

The finally block runs on every path. An exception raised inside the catch
block (reading the name of a caught undefined or null) leaves errMsg unset and
leaves the function once the finally block is done. -/
def assertError {σ : Type} (error : Kind) (op : Op σ) (message : Option String) : Op σ :=
  fun w =>
    match op w with
    | (.normal _, w1) =>
      (.normal .undefined, finallyBlock error message .undefined .undefined w1)
    | (.throw caughtError, w1) =>
      match getName caughtError with
      | .ok errName =>
        (.normal .undefined,
          finallyBlock error message caughtError (.string (errMsgText error message errName)) w1)
      | .error raised =>
        (.throw raised, finallyBlock error message caughtError .undefined w1)

/-- The loop of Array.prototype.reduce once the accumulator holds a value: the
callback is applied to the accumulator and each remaining element in turn. -/
def reduceFrom {α : Type} (callback : α → α → α) (accumulator : α) : List α → α
  | [] => accumulator
  | current :: rest => reduceFrom callback (callback accumulator current) rest

/-- The method Array.prototype.reduce called without an initial value: a
TypeError on the empty array, otherwise the first element is the initial
accumulator and the loop runs over the others. -/
def reduce {α : Type} (callback : α → α → α) : List α → Except Value α
  | [] => .error Kind.TypeError.construct
  | first :: rest => .ok (reduceFrom callback first rest)

/-- A number of the language, an IEEE 754 double: NaN, an infinity, or a finite
value given by the rational it stands for (the two zeros are not told apart). -/
inductive Double where
  | nan
  | inf (negative : Bool)
  | fin (q : ℚ)
deriving DecidableEq, Repr

/-- Rounding to the nearest integer, a tie going to the even neighbour. -/
def roundHalfEven (m : ℚ) : ℤ :=
  if Int.fract m < 1 / 2 then ⌊m⌋
  else if 1 / 2 < Int.fract m then ⌊m⌋ + 1
  else if ⌊m⌋ % 2 = 0 then ⌊m⌋ else ⌊m⌋ + 1

/-- The exponent of the last place of a double of magnitude a > 0: the
significand has 53 bits, and below the least normal magnitude the exponent
stays at -1074. -/
def ulpExponent (a : ℚ) : ℤ := max (Int.log 2 a - 52) (-1074)

/-- The magnitude a > 0 rounded to a multiple of its last place. -/
def roundMagnitude (a : ℚ) : ℚ :=
  (roundHalfEven (a / (2 : ℚ) ^ ulpExponent a) : ℚ) * (2 : ℚ) ^ ulpExponent a

/-- The double nearest to a rational (round to nearest, ties to even); a
magnitude that rounds to 2^1024 or more becomes an infinity. -/
def roundToDouble (q : ℚ) : Double :=
  if q = 0 then .fin 0
  else if (2 : ℚ) ^ (1024 : ℤ) ≤ roundMagnitude |q| then .inf (decide (q < 0))
  else .fin (if q < 0 then -roundMagnitude |q| else roundMagnitude |q|)

/-- The operator + on two numbers: the exact sum, rounded once. -/
def Double.add : Double → Double → Double
  | .nan, _ => .nan
  | _, .nan => .nan
  | .inf s, .inf t => if s = t then .inf s else .nan
  | .inf s, .fin _ => .inf s
  | .fin _, .inf t => .inf t
  | .fin a, .fin b => roundToDouble (a + b)

/-- The function `sum`, on numbers:
    function sum(...args) { return args.reduce((p, c) => p + c); } -/
def sum (args : List Double) : Except Value Double :=
  reduce (fun p c => Double.add p c) args

/-- No addition of the left fold started at `accumulator` rounds: every
intermediate exact sum is a double as it stands. -/
def foldExact (accumulator : ℚ) : List ℚ → Bool
  | [] => true
  | current :: rest =>
    decide (roundToDouble (accumulator + current) = .fin (accumulator + current))
      && foldExact (accumulator + current) rest

/-- The double written 0.1 in a program. -/
def Double.tenth : Double := .fin (3602879701896397 / 2 ^ 55)

/-- The double written 0.2 in a program. -/
def Double.fifth : Double := .fin (3602879701896397 / 2 ^ 54)

/-! ## Operations used to exercise the helpers -/

/-- An operation that throws the given value and does nothing else. -/
def throwing {σ : Type} (v : Value) : Op σ := fun w => (.throw v, w)

/-- An operation that returns undefined and does nothing else, as `() => {}`. -/
def noop {σ : Type} : Op σ := fun w => (.normal .undefined, w)

/-- The operation `op` run on a world whose state carries, next to the state
of `op`, a counter of the invocations. -/
def counted {σ : Type} (op : Op σ) : Op (σ × Nat) := fun w =>
  let r := op ⟨w.heap.1, w.sink⟩
  (r.1, ⟨(r.2.heap, w.heap.2 + 1), r.2.sink⟩)

/-- A class declared as `class MyError extends Error {}`: its prototype has no
name property of its own. -/
def MyError : Kind := .sub ⟨100, "MyError", none⟩ Kind.Error

/-- The empty world. -/
def World.empty : World Unit := ⟨(), []⟩

/-! ## Basic facts about the model -/

theorem consoleAssert_truthy {σ : Type} (c : Value) (data : List Value) (w : World σ)
    (hc : c.toBoolean = true) : consoleAssert (c :: data) w = w := by
  simp [consoleAssert, hc]

theorem consoleAssert_falsy {σ : Type} (c : Value) (data : List Value) (w : World σ)
    (hc : c.toBoolean = false) :
    consoleAssert (c :: data) w = { w with sink := w.sink ++ [data] } := by
  simp [consoleAssert, hc]

theorem errMsgText_length (error : Kind) (message : Option String) (errName : Option String) :
    (errMsgText error message errName).length
      = (match message with
          | some m => m.length + 5
          | none => 0)
        + (19 + error.name.length + 10 + (nameText errName).length) := by
  cases message <;> simp [errMsgText, String.length_append] <;> rfl

theorem errMsgText_truthy (error : Kind) (message : Option String) (errName : Option String) :
    (Value.string (errMsgText error message errName)).toBoolean = true := by
  have hlen := errMsgText_length error message errName
  have hne : errMsgText error message errName ≠ "" := by
    intro h
    rw [h] at hlen
    simp at hlen
    omega
  simp [Value.toBoolean, hne]

theorem assertError_of_normal {σ : Type} (error : Kind) (op : Op σ) (message : Option String)
    (w w1 : World σ) (v : Value) (hop : op w = (.normal v, w1)) :
    assertError error op message w
      = (.normal .undefined, { w1 with sink := w1.sink ++ [[messageArg message]] }) := by
  simp [assertError, hop, finallyBlock, consoleAssert, instanceOf, Value.toBoolean]

theorem consoleAssert_heap {σ : Type} (args : List Value) (w : World σ) :
    (consoleAssert args w).heap = w.heap := by
  unfold consoleAssert
  split <;> rfl

theorem finallyBlock_heap {σ : Type} (error : Kind) (message : Option String)
    (err errMsg : Value) (w : World σ) :
    (finallyBlock error message err errMsg w).heap = w.heap :=
  consoleAssert_heap _ w

theorem assertError_heap {σ : Type} (error : Kind) (op : Op σ) (message : Option String)
    (w : World σ) : (assertError error op message w).2.heap = (op w).2.heap := by
  unfold assertError
  rcases hop : op w with ⟨c, w1⟩
  cases c with
  | normal v => exact finallyBlock_heap _ _ _ _ _
  | throw v =>
    cases hn : getName v with
    | ok n => simp only [hn]; exact finallyBlock_heap _ _ _ _ _
    | error e => simp only [hn]; exact finallyBlock_heap _ _ _ _ _

theorem assertError_of_throw_object {σ : Type} (error : Kind) (op : Op σ)
    (message : Option String) (w w1 : World σ) (kind : Kind) (ownName errName : Option String)
    (hop : op w = (.throw (.object kind ownName), w1))
    (hname : getName (.object kind ownName) = .ok errName) :
    assertError error op message w
      = (.normal .undefined,
          if error ∈ kind.lineage then w1
          else { w1 with sink := w1.sink ++ [[.string (errMsgText error message errName)]] }) := by
  have htruthy := errMsgText_truthy error message errName
  by_cases hmem : error ∈ kind.lineage
  · simp [assertError, hop, hname, finallyBlock, consoleAssert, instanceOf, Value.toBoolean, hmem]
  · simp only [assertError, hop, hname, finallyBlock, htruthy, if_true]
    simp [consoleAssert, instanceOf, Value.toBoolean, hmem]

theorem getName_object (kind : Kind) (ownName : Option String) :
    ∃ errName, getName (.object kind ownName) = .ok errName := by
  cases ownName with
  | none => exact ⟨kind.inheritedName, rfl⟩
  | some n => exact ⟨some n, rfl⟩

theorem inheritedName_of_protoName (kind : Kind) (n : String)
    (h : kind.ctor.protoName = some n) : kind.inheritedName = some n := by
  cases kind with
  | root c => simpa [Kind.inheritedName, Kind.ctor] using h
  | sub c parent =>
    have hc : c.protoName = some n := by simpa [Kind.ctor] using h
    simp [Kind.inheritedName, hc]

theorem messageArg_ne_errMsgText (error : Kind) (message : Option String)
    (observed : Option String) :
    messageArg message ≠ .string (errMsgText error message observed) := by
  cases message with
  | none => simp [messageArg]
  | some m =>
    intro h
    have hm : m = errMsgText error (some m) observed := by simpa [messageArg] using h
    have hlen := errMsgText_length error (some m) observed
    rw [← hm] at hlen
    simp at hlen
    omega

theorem reduceFrom_eq_foldl {α : Type} (callback : α → α → α) (accumulator : α)
    (rest : List α) : reduceFrom callback accumulator rest = rest.foldl callback accumulator := by
  induction rest generalizing accumulator with
  | nil => rfl
  | cons c cs ih => simp [reduceFrom, ih]

theorem roundHalfEven_intCast (z : ℤ) : roundHalfEven (z : ℚ) = z := by
  simp [roundHalfEven]

theorem roundHalfEven_tie (f : ℤ) :
    roundHalfEven ((f : ℚ) + 1 / 2) = if f % 2 = 0 then f else f + 1 := by
  have hfl : ⌊(f : ℚ) + 1 / 2⌋ = f := by
    rw [Int.floor_eq_iff]; constructor <;> norm_num
  have hfr : Int.fract ((f : ℚ) + 1 / 2) = 1 / 2 := by
    rw [Int.fract, hfl]; ring
  simp only [roundHalfEven, hfl, hfr, lt_irrefl, if_false]

theorem log_eq_of_bounds (a : ℚ) (k : ℤ) (h1 : (2 : ℚ) ^ k ≤ a)
    (h2 : a < (2 : ℚ) ^ (k + 1)) : Int.log 2 a = k := by
  have ha : 0 < a := lt_of_lt_of_le (by positivity) h1
  have hle : k ≤ Int.log 2 a :=
    (Int.zpow_le_iff_le_log (by norm_num) ha).1 (by exact_mod_cast h1)
  have hlt : Int.log 2 a < k + 1 :=
    (Int.lt_zpow_iff_log_lt (by norm_num) ha).1 (by exact_mod_cast h2)
  omega

theorem roundMagnitude_eval (a : ℚ) (k r : ℤ) (h1 : (2 : ℚ) ^ k ≤ a)
    (h2 : a < (2 : ℚ) ^ (k + 1)) (hk : -1022 ≤ k)
    (hr : roundHalfEven (a / (2 : ℚ) ^ (k - 52)) = r) :
    roundMagnitude a = (r : ℚ) * (2 : ℚ) ^ (k - 52) := by
  have he : ulpExponent a = k - 52 := by
    rw [ulpExponent, log_eq_of_bounds a k h1 h2]
    exact max_eq_left (by omega)
  rw [roundMagnitude, he, hr]

theorem roundToDouble_pos_eval (q : ℚ) (k r : ℤ) (h1 : (2 : ℚ) ^ k ≤ q)
    (h2 : q < (2 : ℚ) ^ (k + 1)) (hk : -1022 ≤ k)
    (hr : roundHalfEven (q / (2 : ℚ) ^ (k - 52)) = r)
    (hfin : (r : ℚ) * (2 : ℚ) ^ (k - 52) < (2 : ℚ) ^ (1024 : ℤ)) :
    roundToDouble q = .fin ((r : ℚ) * (2 : ℚ) ^ (k - 52)) := by
  have hq : 0 < q := lt_of_lt_of_le (by positivity) h1
  have habs : |q| = q := abs_of_pos hq
  have hm := roundMagnitude_eval q k r h1 h2 hk hr
  simp only [roundToDouble, habs, hm, hq.ne', if_false, not_le.2 hfin, not_lt.2 hq.le]

theorem roundMagnitude_natCast (n : ℕ) (hpos : 0 < n) (hn : n ≤ 2 ^ 53) :
    roundMagnitude (n : ℚ) = n := by
  have hq : (0 : ℚ) < n := by exact_mod_cast hpos
  obtain ⟨k, hkdef⟩ : ∃ k : ℤ, Int.log 2 (n : ℚ) = k := ⟨_, rfl⟩
  have hlow : (2 : ℚ) ^ k ≤ n := by
    have h := Int.zpow_log_le_self (b := 2) (by norm_num) hq
    rw [hkdef] at h
    simpa using h
  have hhigh : (n : ℚ) < (2 : ℚ) ^ (k + 1) := by
    have h := Int.lt_zpow_succ_log_self (b := 2) (by norm_num) (n : ℚ)
    rw [hkdef] at h
    simpa using h
  have hk0 : 0 ≤ k := by
    have h1 : ((2 : ℕ) : ℚ) ^ (0 : ℤ) ≤ (n : ℚ) := by
      simp only [zpow_zero]; exact_mod_cast hpos
    have h2 := (Int.zpow_le_iff_le_log (by norm_num) hq).1 h1
    rw [hkdef] at h2
    exact h2
  have hk53 : k ≤ 53 := by
    by_contra hcon
    have h54 : (54 : ℤ) ≤ k := by omega
    have hmono : (2 : ℚ) ^ (54 : ℤ) ≤ (2 : ℚ) ^ k := zpow_le_zpow_right₀ (by norm_num) h54
    have hn2 : (n : ℚ) ≤ 2 ^ 53 := by exact_mod_cast hn
    have : (2 : ℚ) ^ (54 : ℤ) ≤ 2 ^ 53 := le_trans (le_trans hmono hlow) hn2
    norm_num at this
  have hint : ∃ z : ℤ, (n : ℚ) / (2 : ℚ) ^ (k - 52) = z := by
    rcases le_or_lt k 52 with hle | hgt
    · refine ⟨(n : ℤ) * 2 ^ (52 - k).toNat, ?_⟩
      have hpow : (2 : ℚ) ^ (k - 52) = ((2 : ℚ) ^ (52 - k).toNat)⁻¹ := by
        rw [← zpow_natCast, ← zpow_neg]
        congr 1
        rw [Int.toNat_of_nonneg (by omega)]; ring
      rw [hpow]
      push_cast
      field_simp
    · have hk : k = 53 := by omega
      have hn2 : (n : ℚ) = 2 ^ 53 := by
        apply le_antisymm (by exact_mod_cast hn)
        have := hlow
        rw [hk] at this
        exact_mod_cast this
      refine ⟨2 ^ 52, ?_⟩
      rw [hk, hn2]
      norm_num
  obtain ⟨z, hz⟩ := hint
  have hr : roundHalfEven ((n : ℚ) / (2 : ℚ) ^ (k - 52)) = z := by
    rw [hz]; exact roundHalfEven_intCast z
  rw [roundMagnitude_eval (n : ℚ) k z hlow hhigh (by omega) hr, ← hz]
  field_simp

theorem roundToDouble_natCast (n : ℕ) (hn : n ≤ 2 ^ 53) :
    roundToDouble (n : ℚ) = .fin n ∧ roundToDouble (-(n : ℚ)) = .fin (-(n : ℚ)) := by
  rcases Nat.eq_zero_or_pos n with h0 | hpos
  · subst h0; simp [roundToDouble]
  have hq : (0 : ℚ) < n := by exact_mod_cast hpos
  have hm := roundMagnitude_natCast n hpos hn
  have hbound : ¬ (2 : ℚ) ^ (1024 : ℤ) ≤ (n : ℚ) := by
    have h1 : (n : ℚ) ≤ 2 ^ 53 := by exact_mod_cast hn
    have h2 : (2 : ℚ) ^ 53 < (2 : ℚ) ^ (1024 : ℤ) := by norm_num
    exact not_le.2 (lt_of_le_of_lt h1 h2)
  constructor
  · simp only [roundToDouble, hq.ne', if_false, abs_of_pos hq, hm, hbound, not_lt.2 hq.le]
  · have hneg : -(n : ℚ) < 0 := neg_neg_of_pos hq
    simp only [roundToDouble, hneg.ne, if_false, abs_neg, abs_of_pos hq, hm, hbound, hneg,
      if_true]

theorem roundToDouble_intCast (z : ℤ) (hz : |z| ≤ 2 ^ 53) : roundToDouble (z : ℚ) = .fin z := by
  obtain ⟨n, hn | hn⟩ := Int.eq_nat_or_neg z
  · subst hn
    have hb : n ≤ 2 ^ 53 := by
      have : ((n : ℕ) : ℤ) ≤ 2 ^ 53 := by simpa using hz
      exact_mod_cast this
    have := (roundToDouble_natCast n hb).1
    simpa using this
  · subst hn
    have hb : n ≤ 2 ^ 53 := by
      have : ((n : ℕ) : ℤ) ≤ 2 ^ 53 := by simpa using hz
      exact_mod_cast this
    have := (roundToDouble_natCast n hb).2
    simpa using this

theorem roundToDouble_two_pow_53 : roundToDouble (2 ^ 53) = .fin (2 ^ 53) := by
  have hr : roundHalfEven (((2 : ℚ) ^ 53) / (2 : ℚ) ^ ((53 : ℤ) - 52)) = 2 ^ 52 := by
    have hm : ((2 : ℚ) ^ 53) / (2 : ℚ) ^ ((53 : ℤ) - 52) = ((2 ^ 52 : ℤ) : ℚ) := by
      norm_num
    rw [hm, roundHalfEven_intCast]
  have := roundToDouble_pos_eval (2 ^ 53) 53 (2 ^ 52) (by norm_num) (by norm_num)
    (by norm_num) hr (by norm_num)
  rw [this]
  norm_num

theorem roundToDouble_one : roundToDouble 1 = .fin 1 := by
  have := roundToDouble_intCast 1 (by norm_num)
  simpa using this

theorem roundToDouble_two_pow_53_add_one :
    roundToDouble (2 ^ 53 + 1) = .fin (2 ^ 53) := by
  have hr : roundHalfEven (((2 : ℚ) ^ 53 + 1) / (2 : ℚ) ^ ((53 : ℤ) - 52)) = 2 ^ 52 := by
    have hm : ((2 : ℚ) ^ 53 + 1) / (2 : ℚ) ^ ((53 : ℤ) - 52) = ((2 ^ 52 : ℤ) : ℚ) + 1 / 2 := by
      norm_num
    rw [hm, roundHalfEven_tie]
    norm_num
  have := roundToDouble_pos_eval (2 ^ 53 + 1) 53 (2 ^ 52) (by norm_num) (by norm_num)
    (by norm_num) hr (by norm_num)
  rw [this]
  norm_num

theorem roundToDouble_tenth :
    roundToDouble (3602879701896397 / 2 ^ 55) = .fin (3602879701896397 / 2 ^ 55) := by
  have hr : roundHalfEven (((3602879701896397 : ℚ) / 2 ^ 55) / (2 : ℚ) ^ ((-4 : ℤ) - 52))
      = 7205759403792794 := by
    have hm : ((3602879701896397 : ℚ) / 2 ^ 55) / (2 : ℚ) ^ ((-4 : ℤ) - 52)
        = ((7205759403792794 : ℤ) : ℚ) := by
      norm_num
    rw [hm, roundHalfEven_intCast]
  have := roundToDouble_pos_eval _ (-4) 7205759403792794 (by norm_num) (by norm_num)
    (by norm_num) hr (by norm_num)
  rw [this]
  norm_num

theorem roundToDouble_fifth :
    roundToDouble (3602879701896397 / 2 ^ 54) = .fin (3602879701896397 / 2 ^ 54) := by
  have hr : roundHalfEven (((3602879701896397 : ℚ) / 2 ^ 54) / (2 : ℚ) ^ ((-3 : ℤ) - 52))
      = 7205759403792794 := by
    have hm : ((3602879701896397 : ℚ) / 2 ^ 54) / (2 : ℚ) ^ ((-3 : ℤ) - 52)
        = ((7205759403792794 : ℤ) : ℚ) := by
      norm_num
    rw [hm, roundHalfEven_intCast]
  have := roundToDouble_pos_eval _ (-3) 7205759403792794 (by norm_num) (by norm_num)
    (by norm_num) hr (by norm_num)
  rw [this]
  norm_num

theorem roundToDouble_tenth_add_fifth :
    roundToDouble (3602879701896397 / 2 ^ 55 + 3602879701896397 / 2 ^ 54)
      = .fin (5404319552844596 / 2 ^ 54) := by
  have hr : roundHalfEven (((3602879701896397 : ℚ) / 2 ^ 55 + 3602879701896397 / 2 ^ 54)
      / (2 : ℚ) ^ ((-2 : ℤ) - 52)) = 5404319552844596 := by
    have hm : ((3602879701896397 : ℚ) / 2 ^ 55 + 3602879701896397 / 2 ^ 54)
        / (2 : ℚ) ^ ((-2 : ℤ) - 52) = ((5404319552844595 : ℤ) : ℚ) + 1 / 2 := by
      norm_num
    rw [hm, roundHalfEven_tie]
    norm_num
  have := roundToDouble_pos_eval _ (-2) 5404319552844596 (by norm_num) (by norm_num)
    (by norm_num) hr (by norm_num)
  rw [this]
  norm_num

theorem sum_pair (a b : ℚ) : sum [.fin a, .fin b] = .ok (roundToDouble (a + b)) := rfl

theorem reduceFrom_add_exact (accumulator : ℚ) (rest : List ℚ)
    (h : foldExact accumulator rest = true) :
    reduceFrom (fun p c => Double.add p c) (.fin accumulator) (rest.map .fin)
      = .fin (accumulator + rest.sum) := by
  induction rest generalizing accumulator with
  | nil => simp [reduceFrom]
  | cons c cs ih =>
    simp only [foldExact, Bool.and_eq_true, decide_eq_true_eq] at h
    have hadd : Double.add (.fin accumulator) (.fin c) = .fin (accumulator + c) := h.1
    simp only [List.map_cons, reduceFrom, List.sum_cons]
    rw [hadd, ih (accumulator + c) h.2, add_assoc]

theorem foldExact_of_int (first : ℤ) (rest : List ℤ)
    (h : ∀ p : List ℤ, p <+: rest → |first + p.sum| ≤ 2 ^ 53) :
    foldExact (first : ℚ) (List.map (fun z : ℤ => (z : ℚ)) rest) = true := by
  induction rest generalizing first with
  | nil => rfl
  | cons c cs ih =>
    simp only [List.map_cons, foldExact, Bool.and_eq_true, decide_eq_true_eq]
    constructor
    · have hb : |first + c| ≤ 2 ^ 53 := by
        have := h [c] (by simp)
        simpa using this
      have := roundToDouble_intCast (first + c) hb
      push_cast at this
      exact this
    · have := ih (first + c) (fun p hp => by
        have := h (c :: p) (by simpa using hp)
        simpa [add_assoc] using this)
      push_cast at this
      exact this

/-! ## The claims -/

/-- C3. For every condition value b and optional message, assert(b, message)
writes exactly one diagnostic to the sink when b is falsy and writes nothing
when b is truthy; it returns normally and touches nothing else. The arguments
may be plain values or functions. -/
theorem assert_emits_iff_falsy {σ : Type} (b : Arg σ) (message : Option (Arg σ))
    (w : World σ) :
    (assert (b :: message.toList) w).1 = .normal .undefined
    ∧ (assert (b :: message.toList) w).2.heap = w.heap
    ∧ (assert (b :: message.toList) w).2.sink
        = if b.toValue.toBoolean then w.sink
          else w.sink ++ [message.toList.map Arg.toValue] := by
  refine ⟨rfl, consoleAssert_heap _ w, ?_⟩
  by_cases hb : b.toValue.toBoolean = true
  · simp [assert, consoleAssert, hb]
  · simp [assert, consoleAssert, hb]

/-- C9. The helper assert never runs its arguments. Handed a truthy first
argument c, a function whose body is the operation op (counted, so that a run
of it would show) and a message, assert(c, op, message) returns with the
world exactly as it was: no diagnostic is written and the invocation counter
of op has not moved, whereas one run of op moves it by one. Whatever the first
argument, truthy or not, the counter does not move. -/
theorem assert_truthy_runs_nothing {σ : Type} (c message : Arg (σ × Nat)) (name : String)
    (op : Op σ) (w : World (σ × Nat)) (hc : c.toValue.toBoolean = true) :
    assert [c, .function name (counted op), message] w = (.normal .undefined, w)
    ∧ (assert [c, .function name (counted op), message] w).2.heap.2 = w.heap.2
    ∧ (∀ b : Arg (σ × Nat),
        (assert [b, .function name (counted op), message] w).2.heap = w.heap)
    ∧ (counted op w).2.heap.2 = w.heap.2 + 1 := by
  have h : assert [c, .function name (counted op), message] w = (.normal .undefined, w) := by
    simp [assert, consoleAssert, hc]
  refine ⟨h, ?_, ?_, rfl⟩
  · rw [h]
  · intro b
    exact consoleAssert_heap _ w

/-- The two checks of grammarAndTypes.js lines 72 and 75: the constructor
ReferenceError is the condition, and the callback, which would throw a
ReferenceError if it were run, is not run. -/
theorem assert_truthy_runs_nothing_witness :
    (Arg.value Kind.ReferenceError.asValue : Arg (Unit × Nat)).toValue.toBoolean = true
    ∧ assert [.value Kind.ReferenceError.asValue,
        .function "" (counted (throwing Kind.ReferenceError.construct)),
        .value (.string "function expressions won\x27t be hoisted")]
        (⟨((), 0), []⟩ : World (Unit × Nat))
      = (.normal .undefined, ⟨((), 0), []⟩)
    ∧ (counted (throwing Kind.ReferenceError.construct)
        (⟨((), 0), []⟩ : World (Unit × Nat))).2.heap.2 = 1 :=
  ⟨rfl,
    (assert_truthy_runs_nothing (.value Kind.ReferenceError.asValue)
      (.value (.string "function expressions won\x27t be hoisted")) ""
      (throwing Kind.ReferenceError.construct) ⟨((), 0), []⟩ rfl).1,
    rfl⟩

/-- C4. Whatever the operation does (returns, throws a matching error, throws
anything else), assertError runs it exactly once: with the operation counted,
the counter ends one above where it started, and the state the operation acts
on is the state one run of it leaves. -/
theorem assertError_invokes_once {σ : Type} (error : Kind) (op : Op σ)
    (message : Option String) (w : World (σ × Nat)) :
    (assertError error (counted op) message w).2.heap.2 = w.heap.2 + 1
    ∧ (assertError error (counted op) message w).2.heap.1 = (op ⟨w.heap.1, w.sink⟩).2.heap := by
  have hheap := assertError_heap error (counted op) message w
  constructor
  · rw [hheap]; rfl
  · rw [hheap]; rfl

/-- C6. When the operation returns without throwing, assertError writes
exactly one diagnostic (after whatever the operation wrote itself) and
returns normally. -/
theorem assertError_no_throw_one_diagnostic {σ : Type} (error : Kind) (op : Op σ)
    (message : Option String) (w w1 : World σ) (v : Value) (hop : op w = (.normal v, w1)) :
    (assertError error op message w).1 = .normal .undefined
    ∧ (assertError error op message w).2.heap = w1.heap
    ∧ ∃ d : Diagnostic, (assertError error op message w).2.sink = w1.sink ++ [d] := by
  rw [assertError_of_normal error op message w w1 v hop]
  exact ⟨rfl, rfl, [messageArg message], rfl⟩

/-- Scenario 5: assertError(TypeError, () => {}) writes one diagnostic. -/
theorem assertError_no_throw_one_diagnostic_witness :
    (noop : Op Unit) World.empty = (.normal .undefined, World.empty)
    ∧ ∃ d : Diagnostic,
        (assertError Kind.TypeError noop none World.empty).2.sink = World.empty.sink ++ [d] :=
  ⟨rfl,
    (assertError_no_throw_one_diagnostic Kind.TypeError noop none World.empty World.empty
      .undefined rfl).2.2⟩

/-- C1, as stated, fails. A TypeError is not the Error kind, an operation
throwing a TypeError raises a failure of kind TypeError, and yet
assertError(Error, op) writes no diagnostic at all, where the claim asks for
exactly one. -/
theorem assertError_differing_kind_silent :
    Kind.TypeError ≠ Kind.Error
    ∧ (throwing Kind.TypeError.construct : Op Unit) World.empty
        = (.throw (.object Kind.TypeError none), World.empty)
    ∧ (assertError Kind.Error (throwing Kind.TypeError.construct) none World.empty).2.sink = []
    ∧ ¬ ∃ d : Diagnostic,
        (assertError Kind.Error (throwing Kind.TypeError.construct) none World.empty).2.sink
          = World.empty.sink ++ [d] := by
  refine ⟨by decide, rfl, by decide, ?_⟩
  rintro ⟨d, hd⟩
  have h0 : (assertError Kind.Error (throwing Kind.TypeError.construct) none World.empty).2.sink
      = [] := by decide
  rw [h0] at hd
  simp [World.empty] at hd

/-- C1, amended. For all kinds K1 and K2 and every operation that throws an
error object of kind K1, assertError(K2, op) returns normally and writes no
diagnostic when K1 is K2 or extends K2 (the instanceof test), and writes
exactly one diagnostic otherwise. -/
theorem assertError_kind_match {σ : Type} (K1 K2 : Kind) (ownName : Option String)
    (op : Op σ) (message : Option String) (w w1 : World σ)
    (hop : op w = (.throw (.object K1 ownName), w1)) :
    (assertError K2 op message w).1 = .normal .undefined
    ∧ (K1 = K2 → (assertError K2 op message w).2.sink = w1.sink)
    ∧ (K2 ∈ K1.lineage → (assertError K2 op message w).2.sink = w1.sink)
    ∧ (K2 ∉ K1.lineage →
        ∃ d : Diagnostic, (assertError K2 op message w).2.sink = w1.sink ++ [d]) := by
  obtain ⟨errName, hname⟩ := getName_object K1 ownName
  rw [assertError_of_throw_object K2 op message w w1 K1 ownName errName hop hname]
  have hself : K1 ∈ K1.lineage := by cases K1 <;> simp [Kind.lineage]
  refine ⟨rfl, ?_, ?_, ?_⟩
  · intro h
    subst h
    simp [hself]
  · intro h
    simp [h]
  · intro h
    exact ⟨[.string (errMsgText K2 message errName)], by simp [h]⟩

/-- Scenarios 3 and 4: a ReferenceError is accepted where a ReferenceError is
expected and reported where a TypeError is expected. -/
theorem assertError_kind_match_witness :
    (throwing Kind.ReferenceError.construct : Op Unit) World.empty
        = (.throw (.object Kind.ReferenceError none), World.empty)
    ∧ (assertError Kind.ReferenceError (throwing Kind.ReferenceError.construct) none
        World.empty).2.sink = []
    ∧ Kind.TypeError ∉ Kind.ReferenceError.lineage
    ∧ ∃ d : Diagnostic,
        (assertError Kind.TypeError (throwing Kind.ReferenceError.construct) none
          World.empty).2.sink = [] ++ [d] :=
  ⟨rfl,
    (assertError_kind_match Kind.ReferenceError Kind.ReferenceError none
      (throwing Kind.ReferenceError.construct) none World.empty World.empty rfl).2.1 rfl,
    by decide,
    (assertError_kind_match Kind.ReferenceError Kind.TypeError none
      (throwing Kind.ReferenceError.construct) none World.empty World.empty rfl).2.2.2
      (by decide)⟩

/-- C2 at its failing input: assertError(TypeError, () => { throw null }).
The catch block reads the name of null, which throws a TypeError; the finally
block still writes its diagnostic, and then that TypeError leaves assertError
instead of a normal return. The same happens for a thrown undefined. -/
theorem assertError_throw_null_propagates :
    assertError Kind.TypeError (throwing .null) none World.empty
        = (.throw Kind.TypeError.construct, ⟨(), [[.undefined]]⟩)
    ∧ assertError Kind.TypeError (throwing .undefined) none World.empty
        = (.throw Kind.TypeError.construct, ⟨(), [[.undefined]]⟩) := by
  constructor <;> rfl

/-- C5, as stated, fails. MyError (declared as class MyError extends Error
with an empty body) does not match TypeError, and the one diagnostic of
assertError(TypeError, () => { throw new MyError() }) reads
"expected error was TypeError, but got Error": the text carries the name the
thrown object reports, not the name of its kind, MyError. -/
theorem assertError_mismatch_text_not_kind_name :
    Kind.TypeError ∉ MyError.lineage
    ∧ MyError.name = "MyError"
    ∧ (assertError Kind.TypeError (throwing MyError.construct) none World.empty).2.sink
        = [[.string "expected error was TypeError, but got Error"]]
    ∧ (assertError Kind.TypeError (throwing MyError.construct) none World.empty).2.sink
        ≠ [[.string ("expected error was " ++ Kind.TypeError.name ++ ", but got "
              ++ MyError.name)]] := by
  refine ⟨by decide, rfl, by decide, by decide⟩

/-- C5, amended. For every expected kind E, every operation that throws an
error object of a kind O that does not match E, and every optional message m,
assertError(E, op, m) writes exactly one diagnostic, whose text is
"expected error was <name of E>, but got <N>", preceded by m and " and "
exactly when m is passed. Here N is what reading the name of the thrown object
gives: its own name when it has one, otherwise the first name found on the
prototype chain of O, and the text undefined when there is none. N is the name
of O whenever the object has no name of its own and the prototype of O carries
the name of O, as for every built-in error kind. -/
theorem assertError_mismatch_text {σ : Type} (E O : Kind) (ownName : Option String)
    (op : Op σ) (message : Option String) (w w1 : World σ)
    (hop : op w = (.throw (.object O ownName), w1))
    (hmis : E ∉ O.lineage) :
    (assertError E op message w).2.sink
        = w1.sink ++ [[.string ((match message with
                                  | some m => m ++ " and "
                                  | none => "")
              ++ ("expected error was " ++ E.name ++ ", but got "
                  ++ (match ownName with
                      | some n => n
                      | none =>
                        match O.inheritedName with
                        | some n => n
                        | none => "undefined")))]]
    ∧ (ownName = none → O.ctor.protoName = some O.name →
        (assertError E op message w).2.sink
          = w1.sink ++ [[.string ((match message with
                                    | some m => m ++ " and "
                                    | none => "")
                ++ ("expected error was " ++ E.name ++ ", but got " ++ O.name))]]) := by
  obtain ⟨errName, hname⟩ := getName_object O ownName
  have hrun := assertError_of_throw_object E op message w w1 O ownName errName hop hname
  have hsink : (assertError E op message w).2.sink
      = w1.sink ++ [[.string (errMsgText E message errName)]] := by
    rw [hrun]; simp [hmis]
  constructor
  · rw [hsink]
    cases ownName with
    | some n =>
      have hn : errName = some n := (Except.ok.inj hname).symm
      subst hn
      rfl
    | none =>
      have hn : errName = O.inheritedName := (Except.ok.inj hname).symm
      subst hn
      cases hin : O.inheritedName <;> simp [errMsgText, nameText]
  · intro hown hproto
    subst hown
    have hn : errName = some O.name := by
      have h1 : getName (.object O none) = .ok O.inheritedName := rfl
      rw [h1, inheritedName_of_protoName O O.name hproto] at hname
      exact (Except.ok.inj hname).symm
    rw [hsink, hn]
    rfl

/-- Scenario 4, with and without a message: a ReferenceError where a TypeError
is expected. -/
theorem assertError_mismatch_text_witness :
    (throwing Kind.ReferenceError.construct : Op Unit) World.empty
        = (.throw (.object Kind.ReferenceError none), World.empty)
    ∧ Kind.TypeError ∉ Kind.ReferenceError.lineage
    ∧ (assertError Kind.TypeError (throwing Kind.ReferenceError.construct) none
        World.empty).2.sink
        = [[.string "expected error was TypeError, but got ReferenceError"]]
    ∧ (assertError Kind.TypeError (throwing Kind.ReferenceError.construct)
        (some "no let hoisting, y is undefined") World.empty).2.sink
        = [[.string ("no let hoisting, y is undefined and "
              ++ "expected error was TypeError, but got ReferenceError")]] :=
  ⟨rfl, by decide,
    (assertError_mismatch_text Kind.TypeError Kind.ReferenceError none
      (throwing Kind.ReferenceError.construct) none World.empty World.empty rfl
      (by decide)).1,
    (assertError_mismatch_text Kind.TypeError Kind.ReferenceError none
      (throwing Kind.ReferenceError.construct) (some "no let hoisting, y is undefined")
      World.empty World.empty rfl (by decide)).1⟩

/-- C7, as stated, fails. With an operation that returns normally,
assertError(TypeError, () => {}, "no let hoisting") writes the bare message:
the diagnostic is not of the mismatch form for any observed name, it names
neither the expected kind nor anything observed. -/
theorem assertError_no_throw_bare_message :
    (assertError Kind.TypeError (noop : Op Unit) (some "no let hoisting") World.empty).2.sink
        = [[.string "no let hoisting"]]
    ∧ ¬ ∃ observed : Option String,
        (assertError Kind.TypeError (noop : Op Unit) (some "no let hoisting")
          World.empty).2.sink
          = [[.string (errMsgText Kind.TypeError (some "no let hoisting") observed)]] := by
  refine ⟨by decide, ?_⟩
  rintro ⟨observed, h⟩
  have h0 : (assertError Kind.TypeError (noop : Op Unit) (some "no let hoisting")
      World.empty).2.sink = [[messageArg (some "no let hoisting")]] := by decide
  rw [h0] at h
  have hne := messageArg_ne_errMsgText Kind.TypeError (some "no let hoisting") observed
  simp at h
  exact hne h

/-- C7, amended. When the operation returns without throwing, the one
diagnostic assertError writes carries only the message argument (the value
undefined when no message is passed); it is never the text of the mismatch
form, whatever observed name one puts in it. -/
theorem assertError_no_throw_diagnostic {σ : Type} (error : Kind) (op : Op σ)
    (message : Option String) (w w1 : World σ) (v : Value) (hop : op w = (.normal v, w1)) :
    (assertError error op message w).2.sink = w1.sink ++ [[messageArg message]]
    ∧ ¬ ∃ observed : Option String,
        messageArg message = .string (errMsgText error message observed) := by
  rw [assertError_of_normal error op message w w1 v hop]
  refine ⟨rfl, ?_⟩
  rintro ⟨observed, h⟩
  exact messageArg_ne_errMsgText error message observed h

/-- The no-throw case with and without a message. -/
theorem assertError_no_throw_diagnostic_witness :
    (noop : Op Unit) World.empty = (.normal .undefined, World.empty)
    ∧ (assertError Kind.TypeError (noop : Op Unit) none World.empty).2.sink = [[.undefined]]
    ∧ (assertError Kind.TypeError (noop : Op Unit) (some "msg") World.empty).2.sink
        = [[.string "msg"]] :=
  ⟨rfl,
    (assertError_no_throw_diagnostic Kind.TypeError noop none World.empty World.empty
      .undefined rfl).1,
    (assertError_no_throw_diagnostic Kind.TypeError noop (some "msg") World.empty World.empty
      .undefined rfl).1⟩

/-- C10. Matching is by membership, not by name: when the thrown error object
is of a kind O that extends the expected kind E and bears a different name,
assertError(E, op) writes no diagnostic and returns normally. -/
theorem assertError_subkind_accepted {σ : Type} (E O : Kind) (ownName : Option String)
    (op : Op σ) (message : Option String) (w w1 : World σ)
    (hop : op w = (.throw (.object O ownName), w1))
    (hsub : E ∈ O.lineage) (hname : E.name ≠ O.name) :
    O ≠ E ∧ assertError E op message w = (.normal .undefined, w1) := by
  obtain ⟨errName, hget⟩ := getName_object O ownName
  rw [assertError_of_throw_object E op message w w1 O ownName errName hop hget]
  refine ⟨?_, by simp [hsub]⟩
  intro h
  exact hname (by rw [h])

/-- A TypeError thrown where the base Error kind is expected. -/
theorem assertError_subkind_accepted_witness :
    Kind.Error ∈ Kind.TypeError.lineage
    ∧ Kind.Error.name ≠ Kind.TypeError.name
    ∧ assertError Kind.Error (throwing Kind.TypeError.construct) none World.empty
        = (.normal .undefined, World.empty) :=
  ⟨by decide, by decide,
    (assertError_subkind_accepted Kind.Error Kind.TypeError none
      (throwing Kind.TypeError.construct) none World.empty World.empty rfl (by decide)
      (by decide)).2⟩

/-- C8, as stated, fails. The numbers of the language are doubles and + rounds:
sum(2^53, 1) is 2^53, not the arithmetic sum 2^53 + 1, and sum(0.1, 0.2) is
the double 0.30000000000000004, not the arithmetic sum of the two doubles
written 0.1 and 0.2. All four arguments are doubles as they stand. -/
theorem sum_rounds :
    roundToDouble (2 ^ 53) = .fin (2 ^ 53)
    ∧ roundToDouble 1 = .fin 1
    ∧ roundToDouble (3602879701896397 / 2 ^ 55) = Double.tenth
    ∧ roundToDouble (3602879701896397 / 2 ^ 54) = Double.fifth
    ∧ sum [.fin (2 ^ 53), .fin 1] = .ok (.fin (2 ^ 53))
    ∧ sum [.fin (2 ^ 53), .fin 1] ≠ .ok (.fin (2 ^ 53 + 1))
    ∧ sum [Double.tenth, Double.fifth] = .ok (.fin (5404319552844596 / 2 ^ 54))
    ∧ sum [Double.tenth, Double.fifth]
        ≠ .ok (.fin (3602879701896397 / 2 ^ 55 + 3602879701896397 / 2 ^ 54)) := by
  have h1 : sum [.fin (2 ^ 53), .fin 1] = .ok (.fin (2 ^ 53)) := by
    rw [sum_pair, roundToDouble_two_pow_53_add_one]
  have h2 : sum [Double.tenth, Double.fifth] = .ok (.fin (5404319552844596 / 2 ^ 54)) := by
    rw [Double.tenth, Double.fifth, sum_pair, roundToDouble_tenth_add_fifth]
  refine ⟨roundToDouble_two_pow_53, roundToDouble_one, roundToDouble_tenth,
    roundToDouble_fifth, h1, ?_, h2, ?_⟩
  · rw [h1]
    intro h
    have h3 : (2 : ℚ) ^ 53 = 2 ^ 53 + 1 := Double.fin.inj (Except.ok.inj h)
    linarith
  · rw [h2]
    intro h
    have h3 : (5404319552844596 : ℚ) / 2 ^ 54
        = 3602879701896397 / 2 ^ 55 + 3602879701896397 / 2 ^ 54 :=
      Double.fin.inj (Except.ok.inj h)
    norm_num at h3

/-- C8, amended. On a non-empty list of numbers, sum returns the left fold of
the + of the language (double addition, which rounds the exact sum once) over
the list started at its first element. That is the arithmetic sum of the
elements whenever no addition of the fold rounds, and so whenever the elements
are integers and every partial sum has magnitude at most 2^53. -/
theorem sum_nonempty (args : List Double) (h : args ≠ []) :
    sum args = .ok (args.tail.foldl (fun p c => Double.add p c) (args.head h))
    ∧ (∀ (first : ℚ) (rest : List ℚ), args = .fin first :: rest.map .fin →
        foldExact first rest = true → sum args = .ok (.fin (first :: rest).sum))
    ∧ (∀ (first : ℤ) (rest : List ℤ),
        args = .fin (first : ℚ) :: List.map (fun z : ℤ => Double.fin (z : ℚ)) rest →
        (∀ p : List ℤ, p <+: rest → |first + p.sum| ≤ 2 ^ 53) →
        sum args = .ok (.fin (((first :: rest).sum : ℤ) : ℚ))) := by
  have hexact : ∀ (first : ℚ) (rest : List ℚ), args = .fin first :: rest.map .fin →
      foldExact first rest = true → sum args = .ok (.fin (first :: rest).sum) := by
    intro first rest hargs hex
    subst hargs
    simp only [sum, reduce, List.sum_cons]
    rw [reduceFrom_add_exact first rest hex]
  refine ⟨?_, hexact, ?_⟩
  · cases args with
    | nil => exact absurd rfl h
    | cons first rest => simp [sum, reduce, reduceFrom_eq_foldl]
  · intro first rest hargs hbound
    have hmap : List.map (fun z : ℤ => Double.fin (z : ℚ)) rest
        = List.map Double.fin (List.map (fun z : ℤ => (z : ℚ)) rest) := by
      simp [List.map_map, Function.comp_def]
    have := hexact (first : ℚ) (List.map (fun z : ℤ => (z : ℚ)) rest) (by rw [hargs, hmap])
      (foldExact_of_int first rest hbound)
    rw [this]
    have hsum : (List.map (fun z : ℤ => (z : ℚ)) rest).sum = ((rest.sum : ℤ) : ℚ) := by
      induction rest with
      | nil => simp
      | cons c cs ih => simp
    rw [List.sum_cons, List.sum_cons, hsum]
    push_cast
    rfl

/-- The check of grammarAndTypes.js line 65: sum(2, 1, 3) is 6. -/
theorem sum_nonempty_witness :
    ([.fin 2, .fin 1, .fin 3] : List Double) ≠ []
    ∧ sum [.fin 2, .fin 1, .fin 3] = .ok (.fin 6) := by
  refine ⟨by simp, ?_⟩
  have h := (sum_nonempty [.fin 2, .fin 1, .fin 3] (by simp)).2.2 2 [1, 3] (by simp)
    (by
      intro p hp
      have hlen : p.length ≤ 2 := by simpa using hp.length_le
      obtain ⟨t, ht⟩ := hp
      match p, ht with
      | [], _ => norm_num
      | [a], ht =>
        have : a = 1 := by simpa using (List.cons.inj ht).1
        subst this; norm_num
      | [a, b], ht =>
        have ha : a = 1 := by simpa using (List.cons.inj ht).1
        have hb : b = 3 := by
          have := (List.cons.inj ht).2
          simpa using (List.cons.inj this).1
        subst ha; subst hb; norm_num
      | _ :: _ :: _ :: _, _ => simp at hlen)
  rw [h]
  norm_num

end JsStudy
